import Mathlib

/-!
Shallow embedding of the LLM_EduChat conversation-history service:
the data model (`models.py`), the repository/handler operations
(`crud/session_crud.py`, `crud/message_crud.py`), the completion-client
payload construction and response extraction (`use_api.py`), and the
application-level exception handlers (`main.py`).

The SQLite store is modelled as lists of rows kept in insertion order,
with integer primary keys assigned by an increasing auto-increment
counter; `select ... where P` is list filtering (row order preserved,
which is SQLite rowid order), `.first()` is `List.find?`, and an ORM
mutation on the object returned by `.first()` updates the first matching
row. A raised `HTTPException(status_code, detail)` is the error branch
of `Except`. The external completion API (`aiohttp` round trip) is an
oracle parameter `f : List ChatMsg → Except HTTPError ApiResponse`:
`.error e` is the `HTTPException` that `async_call_openai_chat_api`
raises on transport/status failure, `.ok resp` is the decoded JSON body.
-/

/-- models.py `Session`: id, active (True on creation), optional name. -/
structure Session where
  id : Nat
  active : Bool
  name : Option String
deriving DecidableEq, Repr

/-- models.py `Message`: id, session_id, character_name, message text,
timestamp, is_deleted flag. -/
structure Message where
  id : Nat
  session_id : Nat
  character_name : String
  message : String
  timestamp : Nat
  is_deleted : Bool
deriving DecidableEq, Repr

/-- The persistent store: the two tables plus the auto-increment counter
for message primary keys. -/
structure DB where
  sessions : List Session
  messages : List Message
  nextMessageId : Nat
deriving DecidableEq, Repr

/-- Store invariant provided by SQLite: primary keys are assigned by an
increasing counter, so ids are strictly increasing in row (insertion)
order, and every existing message id is below the counter. -/
def DB.WF (db : DB) : Prop :=
  (db.messages.map (fun m => m.id)).Chain' (· < ·) ∧
  (∀ m ∈ db.messages, m.id < db.nextMessageId) ∧
  (db.sessions.map (fun s => s.id)).Chain' (· < ·)

/-- fastapi `HTTPException(status_code, detail)`. -/
structure HTTPError where
  status_code : Nat
  detail : String
deriving DecidableEq, Repr

/-- One `{"role": ..., "content": ...}` entry of the chat history sent to
the completion API. -/
structure ChatMsg where
  role : String
  content : String
deriving DecidableEq, Repr

/-- The `message` object inside a choice of the completion-API response;
`content` is `none` when the key is absent. -/
structure RespMessage where
  content : Option String
deriving DecidableEq, Repr

/-- One element of the `choices` array of the completion-API response;
`message` is `none` when the key is absent. -/
structure RespChoice where
  message : Option RespMessage
deriving DecidableEq, Repr

/-- Decoded JSON body returned by the completion API; `choices` is `none`
when the key is absent. -/
structure ApiResponse where
  choices : Option (List RespChoice)
deriving DecidableEq, Repr

/-- The Python exception class raised while evaluating
`response['choices'][0]['message']['content']`: a missing dict key raises
`KeyError`, indexing `[0]` into an empty list raises `IndexError`. -/
inductive ExtractErr where
  | keyError
  | indexError
deriving DecidableEq, Repr

/-- message_crud.py line 56: `response['choices'][0]['message']['content']`,
with the exception class each missing piece raises. -/
def extract_content (r : ApiResponse) : Except ExtractErr String :=
  match r.choices with
  | none => .error .keyError
  | some [] => .error .indexError
  | some (c :: _) =>
    match c.message with
    | none => .error .keyError
    | some m =>
      match m.content with
      | none => .error .keyError
      | some s => .ok s

/-- message_crud.py lines 42-44: the non-deleted messages of the session,
in store order (`select(Message).where(session_id == ..., is_deleted == False)`). -/
def session_history (db : DB) (session_id : Nat) : List Message :=
  db.messages.filter (fun m => m.session_id == session_id && m.is_deleted == false)

/-- message_crud.py lines 45-48: map each stored message to a role/content
pair (`"system"` when `character_name == "assistant"`, else `"user"`) and
append the new user text with role `"user"`. -/
def build_chat_history (db : DB) (session_id : Nat) (user_message : String) :
    List ChatMsg :=
  ((session_history db session_id).map
    (fun m => ⟨if m.character_name == "assistant" then "system" else "user", m.message⟩))
  ++ [⟨"user", user_message⟩]

/-- Success payload of `POST /chat/` (message_crud.py lines 65-69). -/
structure ChatResult where
  ai_message_id : Nat
  user_message_id : Nat
  response : String
  character_name : String
deriving DecidableEq, Repr

/-- message_crud.py `chat_with_openai` (lines 31-77): build the history,
call the completion API (the oracle `f`), extract the assistant text
(KeyError is caught with `SQLAlchemyError` as a 500, IndexError falls to
the generic 500), then insert the user row and the assistant row and
commit once. An `HTTPException` raised by the client is re-raised as is.
There is no session-existence check. -/
def chat_with_openai (f : List ChatMsg → Except HTTPError ApiResponse)
    (db : DB) (session_id : Nat) (user_message : String) (now : Nat) :
    Except HTTPError ChatResult × DB :=
  match f (build_chat_history db session_id user_message) with
  | .error e => (.error e, db)
  | .ok resp =>
    match extract_content resp with
    | .error .keyError => (.error ⟨500, "数据库操作或API调用失败"⟩, db)
    | .error .indexError => (.error ⟨500, "与OpenAI通信时发生未知错误"⟩, db)
    | .ok ai_message =>
      let user_row : Message :=
        ⟨db.nextMessageId, session_id, "user", user_message, now, false⟩
      let ai_row : Message :=
        ⟨db.nextMessageId + 1, session_id, "assistant", ai_message, now, false⟩
      (.ok ⟨ai_row.id, user_row.id, ai_message, "assistant"⟩,
       { db with
           messages := db.messages ++ [user_row, ai_row],
           nextMessageId := db.nextMessageId + 2 })

/-- One entry of the list returned by `GET /messages/{session_id}`
(message_crud.py lines 104-108). -/
structure MessageOut where
  id : Nat
  character_name : String
  message : String
deriving DecidableEq, Repr

/-- message_crud.py `get_messages` (lines 80-118): 404 when no session row
has the given id, else the non-deleted messages of the session projected
to `{id, character_name, message}` in store order. -/
def get_messages (db : DB) (session_id : Nat) :
    Except HTTPError (List MessageOut) × DB :=
  match db.sessions.find? (fun s => s.id == session_id) with
  | none => (.error ⟨404, "会话ID不存在"⟩, db)
  | some _ =>
    (.ok ((db.messages.filter
            (fun m => m.session_id == session_id && m.is_deleted == false)).map
          (fun m => ⟨m.id, m.character_name, m.message⟩)),
     db)

/-- Mark the first message row with the given id as deleted (the ORM
mutation on the object returned by `.first()`). -/
def markDeletedFirst : List Message → Nat → List Message
  | [], _ => []
  | m :: rest, mid =>
    if m.id = mid then { m with is_deleted := true } :: rest
    else m :: markDeletedFirst rest mid

/-- message_crud.py `delete_message` (lines 121-151): 404 when no message
row has the given id; when the found row is already deleted, log and
return success with no write; else set `is_deleted = True` and commit. -/
def delete_message (db : DB) (message_id : Nat) :
    Except HTTPError String × DB :=
  match db.messages.find? (fun m => m.id == message_id) with
  | none => (.error ⟨404, "消息ID不存在"⟩, db)
  | some m =>
    if m.is_deleted then (.ok "消息已成功删除", db)
    else (.ok "消息已成功删除",
          { db with messages := markDeletedFirst db.messages message_id })

/-- One entry of the list returned by `GET /sessions/`
(session_crud.py lines 62-66). -/
structure SessionOut where
  session_id : Nat
  session_name : Option String
deriving DecidableEq, Repr

/-- session_crud.py `list_sessions` (lines 46-75): the sessions with
`active == True`, in store order, projected to `{session_id, session_name}`. -/
def list_sessions (db : DB) : Except HTTPError (List SessionOut) × DB :=
  (.ok ((db.sessions.filter (fun s => s.active)).map
        (fun s => ⟨s.id, s.name⟩)),
   db)

/-- Mark the first session row with the given id inactive (the ORM
mutation on the object returned by `.first()`). -/
def markInactiveFirst : List Session → Nat → List Session
  | [], _ => []
  | s :: rest, sid =>
    if s.id = sid then { s with active := false } :: rest
    else s :: markInactiveFirst rest sid

/-- session_crud.py `delete_session` (lines 78-105): 404 when no session
row has the given id; else set `active = False` and commit,
unconditionally (no check of the current `active` value). -/
def delete_session (db : DB) (session_id : Nat) :
    Except HTTPError String × DB :=
  match db.sessions.find? (fun s => s.id == session_id) with
  | none => (.error ⟨404, "会话ID不存在"⟩, db)
  | some _ =>
    (.ok "会话已成功删除",
     { db with sessions := markInactiveFirst db.sessions session_id })

/-- A value of the JSON request payload sent to the completion API. -/
inductive PayloadValue where
  | str (s : String)
  | msgs (l : List ChatMsg)
  | num (q : Rat)
  | int (n : Int)
deriving DecidableEq, Repr

/-- use_api.py lines 52-62 and 122-132 (identical in `call_openai_chat_api`
and `async_call_openai_chat_api`): the payload dict with every key, then
`{k: v for k, v in payload.items() if v is not None}`. -/
def build_payload (model : String) (messages : List ChatMsg)
    (temperature : Option Rat) (max_tokens : Option Int) (top_p : Option Rat)
    (frequency_penalty : Option Rat) (presence_penalty : Option Rat) :
    List (String × PayloadValue) :=
  ([("model", some (.str model)),
    ("messages", some (.msgs messages)),
    ("temperature", temperature.map .num),
    ("max_tokens", max_tokens.map .int),
    ("top_p", top_p.map .num),
    ("frequency_penalty", frequency_penalty.map .num),
    ("presence_penalty", presence_penalty.map .num)]
    : List (String × Option PayloadValue)).filterMap
    (fun kv => kv.2.map (fun v => (kv.1, v)))

/-- JSON body produced by the exception handlers in main.py: a `message`
string plus `exception_detail`, the list of lines of
`traceback.format_exc().splitlines()`. -/
structure ErrorResponse where
  status_code : Nat
  message : String
  exception_detail : List String
deriving DecidableEq, Repr

/-- main.py lines 18-24 `sqlalchemy_exception_handler`: 500 with the
exception text appended to the message and the traceback lines in the body. -/
def sqlalchemy_exception_handler (exc : String) (tb : List String) :
    ErrorResponse :=
  ⟨500, "内部服务器错误，无法完成数据库操作" ++ exc, tb⟩

/-- main.py lines 27-33 `http_exception_handler`: the exception's status
code, its detail appended to the message, and the traceback lines in the
body. -/
def http_exception_handler (exc : HTTPError) (tb : List String) :
    ErrorResponse :=
  ⟨exc.status_code, "服务器错误" ++ exc.detail, tb⟩

/-- main.py lines 36-42, the catch-all `Exception` handler: 500 with the
exception text appended to the message and the traceback lines in the body. -/
def generic_exception_handler (exc : String) (tb : List String) :
    ErrorResponse :=
  ⟨500, "服务器未知错误" ++ exc, tb⟩

/-! ## Helper lemmas about the store invariant -/

theorem wf_messages_pairwise {db : DB} (h : db.WF) :
    db.messages.Pairwise (fun a b => a.id < b.id) := by
  have h1 := h.1
  rw [List.chain'_iff_pairwise] at h1
  exact List.pairwise_map.mp h1

theorem wf_sessions_pairwise {db : DB} (h : db.WF) :
    db.sessions.Pairwise (fun a b => a.id < b.id) := by
  have h1 := h.2.2
  rw [List.chain'_iff_pairwise] at h1
  exact List.pairwise_map.mp h1

theorem eq_of_pairwise_key {α : Type} {key : α → Nat} {l : List α}
    (hu : l.Pairwise (fun a b => key a < key b)) :
    ∀ {a b : α}, a ∈ l → b ∈ l → key a = key b → a = b := by
  induction l with
  | nil => intro a b ha; cases ha
  | cons c t ih =>
    rcases List.pairwise_cons.mp hu with ⟨hc, ht⟩
    intro a b ha hb hid
    rcases List.mem_cons.mp ha with rfl | ha2
    · rcases List.mem_cons.mp hb with rfl | hb2
      · rfl
      · exact absurd hid (by have := hc b hb2; omega)
    · rcases List.mem_cons.mp hb with rfl | hb2
      · exact absurd hid (by have := hc a ha2; omega)
      · exact ih ht ha2 hb2 hid

theorem map_setDeleted_id_of_ne (l : List Message) (mid : Nat)
    (h : ∀ x ∈ l, x.id ≠ mid) :
    l.map (fun x => if x.id = mid then { x with is_deleted := true } else x) = l := by
  induction l with
  | nil => rfl
  | cons a t ih =>
    have ha : a.id ≠ mid := h a (List.mem_cons_self a t)
    simp only [List.map_cons, if_neg ha]
    rw [ih (fun x hx => h x (List.mem_cons_of_mem a hx))]

theorem markDeletedFirst_eq_map (l : List Message) (mid : Nat)
    (hu : l.Pairwise (fun a b => a.id < b.id)) :
    markDeletedFirst l mid =
      l.map (fun x => if x.id = mid then { x with is_deleted := true } else x) := by
  induction l with
  | nil => rfl
  | cons a t ih =>
    rcases List.pairwise_cons.mp hu with ⟨ha, ht⟩
    by_cases hid : a.id = mid
    · have hne : ∀ x ∈ t, x.id ≠ mid := by
        intro x hx
        have := ha x hx
        omega
      simp [markDeletedFirst, hid, map_setDeleted_id_of_ne t mid hne]
    · simp [markDeletedFirst, hid, ih ht]

theorem map_setInactive_id_of_ne (l : List Session) (sid : Nat)
    (h : ∀ x ∈ l, x.id ≠ sid) :
    l.map (fun x => if x.id = sid then { x with active := false } else x) = l := by
  induction l with
  | nil => rfl
  | cons a t ih =>
    have ha : a.id ≠ sid := h a (List.mem_cons_self a t)
    simp only [List.map_cons, if_neg ha]
    rw [ih (fun x hx => h x (List.mem_cons_of_mem a hx))]

theorem markInactiveFirst_eq_map (l : List Session) (sid : Nat)
    (hu : l.Pairwise (fun a b => a.id < b.id)) :
    markInactiveFirst l sid =
      l.map (fun x => if x.id = sid then { x with active := false } else x) := by
  induction l with
  | nil => rfl
  | cons a t ih =>
    rcases List.pairwise_cons.mp hu with ⟨ha, ht⟩
    by_cases hid : a.id = sid
    · have hne : ∀ x ∈ t, x.id ≠ sid := by
        intro x hx
        have := ha x hx
        omega
      simp [markInactiveFirst, hid, map_setInactive_id_of_ne t sid hne]
    · simp [markInactiveFirst, hid, ih ht]

/-! ## Claim theorems -/

/-- C3: `list_messages` first confirms the session exists and returns
`NotFound` (404) if it does not; otherwise it returns exactly the
non-deleted messages of that session (projected to id, character_name,
message), ordered by strictly ascending message id. -/
theorem get_messages_spec (db : DB) (session_id : Nat) (hwf : db.WF) :
    ((¬ ∃ s ∈ db.sessions, s.id = session_id) →
      get_messages db session_id = (.error ⟨404, "会话ID不存在"⟩, db)) ∧
    ((∃ s ∈ db.sessions, s.id = session_id) →
      ∃ out, get_messages db session_id = (.ok out, db) ∧
        (∀ o, o ∈ out ↔ ∃ m ∈ db.messages, m.session_id = session_id ∧
            m.is_deleted = false ∧ o = ⟨m.id, m.character_name, m.message⟩) ∧
        (out.map (fun o => o.id)).Chain' (· < ·)) := by
  constructor
  · intro hne
    have hfind : db.sessions.find? (fun s => s.id == session_id) = none := by
      rw [List.find?_eq_none]
      intro s hs
      simp only [beq_iff_eq]
      intro h
      exact hne ⟨s, hs, h⟩
    simp [get_messages, hfind]
  · rintro ⟨s, hs, hsid⟩
    cases hfind : db.sessions.find? (fun x => x.id == session_id) with
    | none =>
      exfalso
      rw [List.find?_eq_none] at hfind
      exact hfind s hs (by simp [hsid])
    | some s0 =>
      refine ⟨(db.messages.filter
          (fun m => m.session_id == session_id && m.is_deleted == false)).map
          (fun m => ⟨m.id, m.character_name, m.message⟩), ?_, ?_, ?_⟩
      · simp [get_messages, hfind]
      · intro o
        constructor
        · intro ho
          rcases List.mem_map.mp ho with ⟨m, hmf, hproj⟩
          rcases List.mem_filter.mp hmf with ⟨hml, hcond⟩
          have h1 : m.session_id = session_id ∧ m.is_deleted = false := by
            simpa [Bool.and_eq_true, beq_iff_eq] using hcond
          exact ⟨m, hml, h1.1, h1.2, hproj.symm⟩
        · rintro ⟨m, hml, h1, h2, rfl⟩
          exact List.mem_map.mpr ⟨m, List.mem_filter.mpr ⟨hml, by simp [h1, h2]⟩, rfl⟩
      · rw [List.map_map, List.chain'_iff_pairwise, List.pairwise_map]
        exact (wf_messages_pairwise hwf).filter _

/-- Witness for C3 at a concrete store: session 1 exists, its single
non-deleted message is returned in ascending-id order. -/
theorem get_messages_spec_witness :
    ∃ out, get_messages ⟨[⟨1, true, none⟩], [⟨1, 1, "user", "a", 0, false⟩], 2⟩ 1 =
      (.ok out, ⟨[⟨1, true, none⟩], [⟨1, 1, "user", "a", 0, false⟩], 2⟩) ∧
      (∀ o, o ∈ out ↔ ∃ m ∈ [(⟨1, 1, "user", "a", 0, false⟩ : Message)],
          m.session_id = 1 ∧ m.is_deleted = false ∧
          o = ⟨m.id, m.character_name, m.message⟩) ∧
      (out.map (fun o => o.id)).Chain' (· < ·) :=
  (get_messages_spec ⟨[⟨1, true, none⟩], [⟨1, 1, "user", "a", 0, false⟩], 2⟩ 1
    (by constructor <;> simp)).2 ⟨⟨1, true, none⟩, by simp, rfl⟩

theorem setDeleted_eq_self {m : Message} (h : m.is_deleted = true) :
    { m with is_deleted := true } = m := by
  cases m
  simp_all

theorem get_messages_ok_inv {db : DB} {sid : Nat} {out : List MessageOut}
    (h : (get_messages db sid).1 = .ok out) {o : MessageOut} (ho : o ∈ out) :
    ∃ m ∈ db.messages, m.session_id = sid ∧ m.is_deleted = false ∧
      o = ⟨m.id, m.character_name, m.message⟩ := by
  unfold get_messages at h
  cases hfind : db.sessions.find? (fun s => s.id == sid) with
  | none =>
    rw [hfind] at h
    simp at h
  | some s0 =>
    rw [hfind] at h
    simp only at h
    rcases Except.ok.inj h with rfl
    rcases List.mem_map.mp ho with ⟨m, hmf, hproj⟩
    rcases List.mem_filter.mp hmf with ⟨hml, hcond⟩
    have h1 : m.session_id = sid ∧ m.is_deleted = false := by
      simpa [Bool.and_eq_true, beq_iff_eq] using hcond
    exact ⟨m, hml, h1.1, h1.2, hproj.symm⟩

/-- C4: soft-deleting a message is idempotent: for an existing message id
the first delete succeeds and marks the row deleted, a repeated delete on
the same id also reports success while modifying nothing, after the first
call the id no longer appears in any `list_messages` result, and for an
id matching no message the call fails with `NotFound` (404). -/
theorem delete_message_idem (db : DB) (mid : Nat) (hwf : db.WF) :
    ((¬ ∃ m ∈ db.messages, m.id = mid) →
      delete_message db mid = (.error ⟨404, "消息ID不存在"⟩, db)) ∧
    (∀ m, m ∈ db.messages → m.id = mid →
      ∃ db2, delete_message db mid = (.ok "消息已成功删除", db2) ∧
        { m with is_deleted := true } ∈ db2.messages ∧
        delete_message db2 mid = (.ok "消息已成功删除", db2) ∧
        (∀ sid out, (get_messages db2 sid).1 = .ok out → ∀ o ∈ out, o.id ≠ mid)) := by
  constructor
  · intro hne
    have hfind : db.messages.find? (fun x => x.id == mid) = none := by
      rw [List.find?_eq_none]
      intro x hx
      simp only [beq_iff_eq]
      intro h
      exact hne ⟨x, hx, h⟩
    simp [delete_message, hfind]
  · intro m hm hmid
    cases hfind : db.messages.find? (fun x => x.id == mid) with
    | none =>
      exfalso
      rw [List.find?_eq_none] at hfind
      exact hfind m hm (by simp [hmid])
    | some m0 =>
      have hm0id : m0.id = mid := by simpa using List.find?_some hfind
      have hm0mem : m0 ∈ db.messages := List.mem_of_find?_eq_some hfind
      have hmm0 : m = m0 :=
        eq_of_pairwise_key (wf_messages_pairwise hwf) hm hm0mem (by rw [hmid, hm0id])
      by_cases hdel : m0.is_deleted
      · refine ⟨db, by simp [delete_message, hfind, hdel], ?_,
          by simp [delete_message, hfind, hdel], ?_⟩
        · rw [hmm0, setDeleted_eq_self hdel]
          exact hm0mem
        · intro sid out hout o ho hoid
          rcases get_messages_ok_inv hout ho with ⟨m2, hm2, _, hm2del, rfl⟩
          have hm2id : m2.id = mid := hoid
          have hm20 : m2 = m0 :=
            eq_of_pairwise_key (wf_messages_pairwise hwf) hm2 hm0mem
              (by rw [hm2id, hm0id])
          rw [hm20] at hm2del
          rw [hm2del] at hdel
          cases hdel
      · have hmark := markDeletedFirst_eq_map db.messages mid (wf_messages_pairwise hwf)
        have hkey : ((fun x : Message => x.id == mid) ∘
            (fun x : Message => if x.id = mid then { x with is_deleted := true } else x)) =
            fun x : Message => x.id == mid := by
          funext x
          by_cases hx : x.id = mid <;> simp [hx]
        refine ⟨{ db with messages := markDeletedFirst db.messages mid },
          by simp [delete_message, hfind, hdel], ?_, ?_, ?_⟩
        · rw [hmm0]
          simp only [hmark]
          exact List.mem_map.mpr ⟨m0, hm0mem, by simp [hm0id]⟩
        · have hfind2 : (markDeletedFirst db.messages mid).find? (fun x => x.id == mid) =
              some { m0 with is_deleted := true } := by
            rw [hmark, List.find?_map, hkey, hfind]
            simp [hm0id]
          simp [delete_message, hfind2]
        · intro sid out hout o ho hoid
          rcases get_messages_ok_inv hout ho with ⟨m2, hm2, _, hm2del, rfl⟩
          simp only [hmark] at hm2
          rcases List.mem_map.mp hm2 with ⟨x, hx, hfx⟩
          by_cases hxid : x.id = mid
          · rw [if_pos hxid] at hfx
            rw [← hfx] at hm2del
            simp at hm2del
          · rw [if_neg hxid] at hfx
            rw [← hfx] at hoid
            simp at hoid
            exact hxid hoid

/-- Witness for C4 at a concrete store: deleting message 1 succeeds, marks
it deleted, a second delete also succeeds without change, and the id is
gone from every `list_messages` result. -/
theorem delete_message_idem_witness :
    ∃ db2, delete_message ⟨[⟨1, true, none⟩], [⟨1, 1, "user", "a", 0, false⟩], 2⟩ 1 =
        (.ok "消息已成功删除", db2) ∧
      (⟨1, 1, "user", "a", 0, true⟩ : Message) ∈ db2.messages ∧
      delete_message db2 1 = (.ok "消息已成功删除", db2) ∧
      (∀ sid out, (get_messages db2 sid).1 = .ok out → ∀ o ∈ out, o.id ≠ 1) :=
  (delete_message_idem ⟨[⟨1, true, none⟩], [⟨1, 1, "user", "a", 0, false⟩], 2⟩ 1
    (by constructor <;> simp)).2 ⟨1, 1, "user", "a", 0, false⟩ (by simp) rfl

/-- C10: `delete_message` on an existing id only toggles that row's
`is_deleted` flag: the sessions table and the id counter are untouched,
every row is mapped to itself except the targeted id which keeps all
fields but `is_deleted`, rows with a different id survive unchanged, and
when the target is already deleted the store is unchanged entirely. -/
theorem delete_message_frame (db : DB) (mid : Nat) (hwf : db.WF) :
    (∀ m, m ∈ db.messages → m.id = mid →
      (delete_message db mid).2.sessions = db.sessions ∧
      (delete_message db mid).2.nextMessageId = db.nextMessageId ∧
      (delete_message db mid).2.messages =
        db.messages.map
          (fun x => if x.id = mid then { x with is_deleted := true } else x) ∧
      (m.is_deleted = true → (delete_message db mid).2 = db)) ∧
    (∀ x, x ∈ db.messages → x.id ≠ mid →
      x ∈ (delete_message db mid).2.messages) := by
  constructor
  · intro m hm hmid
    cases hfind : db.messages.find? (fun x => x.id == mid) with
    | none =>
      exfalso
      rw [List.find?_eq_none] at hfind
      exact hfind m hm (by simp [hmid])
    | some m0 =>
      have hm0id : m0.id = mid := by simpa using List.find?_some hfind
      have hm0mem : m0 ∈ db.messages := List.mem_of_find?_eq_some hfind
      have hmm0 : m = m0 :=
        eq_of_pairwise_key (wf_messages_pairwise hwf) hm hm0mem (by rw [hmid, hm0id])
      by_cases hdel : m0.is_deleted
      · have hmapeq : db.messages.map
            (fun x => if x.id = mid then { x with is_deleted := true } else x) =
            db.messages := by
          have hfix : ∀ x ∈ db.messages,
              (if x.id = mid then { x with is_deleted := true } else x) = x := by
            intro x hx
            by_cases hxid : x.id = mid
            · have hx0 : x = m0 :=
                eq_of_pairwise_key (wf_messages_pairwise hwf) hx hm0mem
                  (by rw [hxid, hm0id])
              rw [if_pos hxid, hx0, setDeleted_eq_self hdel]
            · rw [if_neg hxid]
          calc db.messages.map
                (fun x => if x.id = mid then { x with is_deleted := true } else x)
              = db.messages.map id := List.map_congr_left hfix
            _ = db.messages := List.map_id _
        refine ⟨?_, ?_, ?_, ?_⟩ <;> simp [delete_message, hfind, hdel, hmapeq]
      · have hmark := markDeletedFirst_eq_map db.messages mid (wf_messages_pairwise hwf)
        refine ⟨by simp [delete_message, hfind, hdel],
          by simp [delete_message, hfind, hdel],
          by simp [delete_message, hfind, hdel, hmark], ?_⟩
        intro hmdel
        rw [hmm0] at hmdel
        exact absurd hmdel hdel
  · intro x hx hne
    cases hfind : db.messages.find? (fun y => y.id == mid) with
    | none => simp [delete_message, hfind, hx]
    | some m0 =>
      by_cases hdel : m0.is_deleted
      · simp [delete_message, hfind, hdel, hx]
      · have hmark := markDeletedFirst_eq_map db.messages mid (wf_messages_pairwise hwf)
        simp only [delete_message, hfind, if_neg hdel]
        simp only [hmark]
        exact List.mem_map.mpr ⟨x, hx, by simp [hne]⟩

/-- Witness for C10 at a concrete store: deleting message 2 leaves the
sessions table unchanged and keeps message 1 intact. -/
theorem delete_message_frame_witness :
    (delete_message ⟨[⟨1, true, none⟩],
        [⟨1, 1, "user", "a", 0, false⟩, ⟨2, 1, "assistant", "b", 0, false⟩], 3⟩ 2).2.sessions
      = [⟨1, true, none⟩] ∧
    (⟨1, 1, "user", "a", 0, false⟩ : Message) ∈
      (delete_message ⟨[⟨1, true, none⟩],
        [⟨1, 1, "user", "a", 0, false⟩, ⟨2, 1, "assistant", "b", 0, false⟩], 3⟩ 2).2.messages := by
  have h := delete_message_frame ⟨[⟨1, true, none⟩],
    [⟨1, 1, "user", "a", 0, false⟩, ⟨2, 1, "assistant", "b", 0, false⟩], 3⟩ 2
    (by constructor <;> simp)
  exact ⟨(h.1 ⟨2, 1, "assistant", "b", 0, false⟩ (by simp) rfl).1,
    h.2 ⟨1, 1, "user", "a", 0, false⟩ (by simp) (by decide)⟩

/-- C8: deleting a nonexistent session returns `NotFound` (404); deleting
an existing session sets `active = false` and succeeds, also on a second
call against the now-inactive session; afterwards it is absent from
`list_sessions`, while its messages are untouched and still retrievable
through `list_messages`. -/
theorem delete_session_spec (db : DB) (sid : Nat) (hwf : db.WF) :
    ((¬ ∃ s ∈ db.sessions, s.id = sid) →
      delete_session db sid = (.error ⟨404, "会话ID不存在"⟩, db)) ∧
    (∀ s, s ∈ db.sessions → s.id = sid →
      ∃ db2, delete_session db sid = (.ok "会话已成功删除", db2) ∧
        { s with active := false } ∈ db2.sessions ∧
        (delete_session db2 sid).1 = .ok "会话已成功删除" ∧
        (∃ L, list_sessions db2 = (.ok L, db2) ∧ ∀ o ∈ L, o.session_id ≠ sid) ∧
        db2.messages = db.messages ∧
        (get_messages db2 sid).1 = (get_messages db sid).1 ∧
        (∃ out, (get_messages db2 sid).1 = .ok out)) := by
  constructor
  · intro hne
    have hfind : db.sessions.find? (fun x => x.id == sid) = none := by
      rw [List.find?_eq_none]
      intro x hx
      simp only [beq_iff_eq]
      intro h
      exact hne ⟨x, hx, h⟩
    simp [delete_session, hfind]
  · intro s hs hsid
    cases hfind : db.sessions.find? (fun x => x.id == sid) with
    | none =>
      exfalso
      rw [List.find?_eq_none] at hfind
      exact hfind s hs (by simp [hsid])
    | some s0 =>
      have hs0id : s0.id = sid := by simpa using List.find?_some hfind
      have hs0mem : s0 ∈ db.sessions := List.mem_of_find?_eq_some hfind
      have hss0 : s = s0 :=
        eq_of_pairwise_key (wf_sessions_pairwise hwf) hs hs0mem (by rw [hsid, hs0id])
      have hmark := markInactiveFirst_eq_map db.sessions sid (wf_sessions_pairwise hwf)
      have hkey : ((fun x : Session => x.id == sid) ∘
          (fun x : Session => if x.id = sid then { x with active := false } else x)) =
          fun x : Session => x.id == sid := by
        funext x
        by_cases hx : x.id = sid <;> simp [hx]
      have hfind2 : (markInactiveFirst db.sessions sid).find? (fun x => x.id == sid) =
          some { s0 with active := false } := by
        rw [hmark, List.find?_map, hkey, hfind]
        simp [hs0id]
      refine ⟨{ db with sessions := markInactiveFirst db.sessions sid },
        by simp [delete_session, hfind], ?_, ?_, ?_, rfl, ?_, ?_⟩
      · rw [hss0]
        simp only [hmark]
        exact List.mem_map.mpr ⟨s0, hs0mem, by simp [hs0id]⟩
      · simp [delete_session, hfind2]
      · refine ⟨_, rfl, ?_⟩
        intro o ho hoid
        rcases List.mem_map.mp ho with ⟨x, hxf, hproj⟩
        rcases List.mem_filter.mp hxf with ⟨hxl, hxact⟩
        simp only [hmark] at hxl
        rcases List.mem_map.mp hxl with ⟨y, hy, hfy⟩
        by_cases hyid : y.id = sid
        · rw [if_pos hyid] at hfy
          rw [← hfy] at hxact
          simp at hxact
        · rw [if_neg hyid] at hfy
          have : o.session_id = x.id := by rw [← hproj]
          rw [this, ← hfy] at hoid
          exact hyid hoid
      · simp [get_messages, hfind, hfind2]
      · exact ⟨(db.messages.filter
            (fun m => m.session_id == sid && m.is_deleted == false)).map
            (fun m => ⟨m.id, m.character_name, m.message⟩),
          by simp [get_messages, hfind2]⟩

/-- Witness for C8 at a concrete store: deleting session 1 succeeds, the
row becomes inactive, a second delete still succeeds, session 1 is gone
from `list_sessions`, and its message survives and stays readable. -/
theorem delete_session_spec_witness :
    ∃ db2, delete_session ⟨[⟨1, true, some "t"⟩], [⟨1, 1, "user", "hello", 0, false⟩], 2⟩ 1 =
        (.ok "会话已成功删除", db2) ∧
      (⟨1, false, some "t"⟩ : Session) ∈ db2.sessions ∧
      (delete_session db2 1).1 = .ok "会话已成功删除" ∧
      (∃ L, list_sessions db2 = (.ok L, db2) ∧ ∀ o ∈ L, o.session_id ≠ 1) ∧
      db2.messages = [⟨1, 1, "user", "hello", 0, false⟩] ∧
      (get_messages db2 1).1 =
        (get_messages ⟨[⟨1, true, some "t"⟩], [⟨1, 1, "user", "hello", 0, false⟩], 2⟩ 1).1 ∧
      (∃ out, (get_messages db2 1).1 = .ok out) :=
  (delete_session_spec ⟨[⟨1, true, some "t"⟩], [⟨1, 1, "user", "hello", 0, false⟩], 2⟩ 1
    (by constructor <;> simp)).2 ⟨1, true, some "t"⟩ (by simp) rfl

/-- C5: a successful chat turn inserts the user message and the assistant
reply together in the one committed write, user row first, so the user
message id is strictly below the assistant message id, and returns both
new ids, the assistant text, and character_name "assistant". -/
theorem chat_success (f : List ChatMsg → Except HTTPError ApiResponse)
    (db : DB) (sid : Nat) (text : String) (now : Nat)
    (resp : ApiResponse) (s : String)
    (hf : f (build_chat_history db sid text) = .ok resp)
    (hex : extract_content resp = .ok s) :
    chat_with_openai f db sid text now =
      (.ok ⟨db.nextMessageId + 1, db.nextMessageId, s, "assistant"⟩,
       { db with
           messages := db.messages ++
             [⟨db.nextMessageId, sid, "user", text, now, false⟩,
              ⟨db.nextMessageId + 1, sid, "assistant", s, now, false⟩],
           nextMessageId := db.nextMessageId + 2 }) ∧
    db.nextMessageId < db.nextMessageId + 1 := by
  constructor
  · simp [chat_with_openai, hf, hex]
  · exact Nat.lt_succ_self _

/-- Witness for C5: the round-trip of the spec, "hello" against a client
stubbed to answer "world", yields ids 1 (user) and 2 (assistant). -/
theorem chat_success_witness :
    chat_with_openai (fun _ => .ok ⟨some [⟨some ⟨some "world"⟩⟩]⟩)
        ⟨[⟨1, true, some "Test"⟩], [], 1⟩ 1 "hello" 0 =
      (.ok ⟨2, 1, "world", "assistant"⟩,
       ⟨[⟨1, true, some "Test"⟩],
        [⟨1, 1, "user", "hello", 0, false⟩, ⟨2, 1, "assistant", "world", 0, false⟩], 3⟩) ∧
    (1 : Nat) < 1 + 1 :=
  chat_success _ ⟨[⟨1, true, some "Test"⟩], [], 1⟩ 1 "hello" 0 _ "world" rfl rfl

/-- C2: when the Completion Client call fails (transport/status failure,
or a response body from which the assistant text cannot be extracted),
the chat turn reports a classified error and the store is unchanged, so
`list_messages` afterwards returns the same sequence as before. -/
theorem chat_failure_atomic (f : List ChatMsg → Except HTTPError ApiResponse)
    (db : DB) (sid : Nat) (text : String) (now : Nat) :
    (∀ e, f (build_chat_history db sid text) = .error e →
      chat_with_openai f db sid text now = (.error e, db)) ∧
    (∀ resp err, f (build_chat_history db sid text) = .ok resp →
      extract_content resp = .error err →
      ∃ e, e.status_code = 500 ∧
        chat_with_openai f db sid text now = (.error e, db)) ∧
    (∀ e db2, chat_with_openai f db sid text now = (.error e, db2) →
      db2 = db ∧ ∀ sid2, get_messages db2 sid2 = get_messages db sid2) := by
  refine ⟨?_, ?_, ?_⟩
  · intro e he
    simp [chat_with_openai, he]
  · intro resp err hok hex
    cases err with
    | keyError =>
      exact ⟨⟨500, "数据库操作或API调用失败"⟩, rfl, by simp [chat_with_openai, hok, hex]⟩
    | indexError =>
      exact ⟨⟨500, "与OpenAI通信时发生未知错误"⟩, rfl, by simp [chat_with_openai, hok, hex]⟩
  · intro e db2 h
    have hdb : db2 = db := by
      cases hf : f (build_chat_history db sid text) with
      | error e2 =>
        have hsnd := congrArg Prod.snd h
        simp [chat_with_openai, hf] at hsnd
        exact hsnd.symm
      | ok resp =>
        cases hex : extract_content resp with
        | error err =>
          have hsnd := congrArg Prod.snd h
          cases err <;> simp [chat_with_openai, hf, hex] at hsnd <;> exact hsnd.symm
        | ok s =>
          have hfst := congrArg Prod.fst h
          simp [chat_with_openai, hf, hex] at hfst
    refine ⟨hdb, ?_⟩
    intro sid2
    rw [hdb]

/-- Witness for C2: a deterministic transport failure propagates unchanged
and leaves the (empty) store untouched. -/
theorem chat_failure_atomic_witness :
    chat_with_openai (fun _ => .error ⟨502, "bad gateway"⟩) ⟨[], [], 0⟩ 5 "hi" 0 =
      (.error ⟨502, "bad gateway"⟩, ⟨[], [], 0⟩) :=
  (chat_failure_atomic _ ⟨[], [], 0⟩ 5 "hi" 0).1 ⟨502, "bad gateway"⟩ rfl

/-- C7: the history sent to the Completion Client maps every stored
non-deleted message of the session — role "system" exactly when
character_name is "assistant", role "user" otherwise — in stored order,
and appends the new user text last with role "user"; the chat result
depends on the oracle only through this history (it is invoked with it),
and a failing call leaves the store unchanged (nothing persisted yet). -/
theorem chat_history_mapping (db : DB) (sid : Nat) (text : String) :
    (∀ m, m ∈ session_history db sid ↔
      m ∈ db.messages ∧ m.session_id = sid ∧ m.is_deleted = false) ∧
    build_chat_history db sid text =
      (session_history db sid).map
        (fun m => ⟨if m.character_name = "assistant" then "system" else "user",
                   m.message⟩) ++ [⟨"user", text⟩] ∧
    (∀ f g now,
      f (build_chat_history db sid text) = g (build_chat_history db sid text) →
      chat_with_openai f db sid text now = chat_with_openai g db sid text now) ∧
    (∀ e now, chat_with_openai (fun _ => .error e) db sid text now = (.error e, db)) := by
  refine ⟨?_, ?_, ?_, ?_⟩
  · intro m
    simp [session_history, List.mem_filter]
  · unfold build_chat_history
    congr 1
    apply List.map_congr_left
    intro m _
    by_cases h : m.character_name = "assistant" <;> simp [h]
  · intro f g now hfg
    unfold chat_with_openai
    rw [hfg]
  · intro e now
    simp [chat_with_openai]

/-- Witness for C7: two oracles that agree on the built history produce
identical chat outcomes. -/
theorem chat_history_mapping_witness :
    chat_with_openai (fun _ => .error ⟨401, "x"⟩) ⟨[], [], 0⟩ 1 "hi" 0 =
      chat_with_openai (fun h2 => .error ⟨400 + h2.length, "x"⟩) ⟨[], [], 0⟩ 1 "hi" 0 :=
  (chat_history_mapping ⟨[], [], 0⟩ 1 "hi").2.2.1 _ _ 0 rfl

/-- C9: the completion-API payload always carries the model identifier and
the ordered role/content messages, and each optional generation parameter
left unset (`None`) is absent from the payload entirely, while a set one
appears with its value. -/
theorem build_payload_spec (model : String) (messages : List ChatMsg)
    (temperature : Option Rat) (max_tokens : Option Int) (top_p : Option Rat)
    (frequency_penalty : Option Rat) (presence_penalty : Option Rat) :
    ("model", PayloadValue.str model) ∈ build_payload model messages temperature
        max_tokens top_p frequency_penalty presence_penalty ∧
    ("messages", PayloadValue.msgs messages) ∈ build_payload model messages temperature
        max_tokens top_p frequency_penalty presence_penalty ∧
    (temperature = none → ∀ v, ("temperature", v) ∉ build_payload model messages
        temperature max_tokens top_p frequency_penalty presence_penalty) ∧
    (∀ q, temperature = some q → ("temperature", PayloadValue.num q) ∈ build_payload
        model messages temperature max_tokens top_p frequency_penalty presence_penalty) ∧
    (max_tokens = none → ∀ v, ("max_tokens", v) ∉ build_payload model messages
        temperature max_tokens top_p frequency_penalty presence_penalty) ∧
    (∀ n, max_tokens = some n → ("max_tokens", PayloadValue.int n) ∈ build_payload
        model messages temperature max_tokens top_p frequency_penalty presence_penalty) ∧
    (top_p = none → ∀ v, ("top_p", v) ∉ build_payload model messages
        temperature max_tokens top_p frequency_penalty presence_penalty) ∧
    (∀ q, top_p = some q → ("top_p", PayloadValue.num q) ∈ build_payload
        model messages temperature max_tokens top_p frequency_penalty presence_penalty) ∧
    (frequency_penalty = none → ∀ v, ("frequency_penalty", v) ∉ build_payload model
        messages temperature max_tokens top_p frequency_penalty presence_penalty) ∧
    (∀ q, frequency_penalty = some q → ("frequency_penalty", PayloadValue.num q) ∈
        build_payload model messages temperature max_tokens top_p frequency_penalty
        presence_penalty) ∧
    (presence_penalty = none → ∀ v, ("presence_penalty", v) ∉ build_payload model
        messages temperature max_tokens top_p frequency_penalty presence_penalty) ∧
    (∀ q, presence_penalty = some q → ("presence_penalty", PayloadValue.num q) ∈
        build_payload model messages temperature max_tokens top_p frequency_penalty
        presence_penalty) := by
  cases temperature <;> cases max_tokens <;> cases top_p <;>
    cases frequency_penalty <;> cases presence_penalty <;>
    simp [build_payload]

/-- Witness for C9: with only temperature set, the payload has model,
messages and temperature, and no max_tokens key at all. -/
theorem build_payload_spec_witness :
    ("model", PayloadValue.str "gpt") ∈
      build_payload "gpt" [⟨"user", "hi"⟩] (some 1) none none none none ∧
    ("temperature", PayloadValue.num 1) ∈
      build_payload "gpt" [⟨"user", "hi"⟩] (some 1) none none none none ∧
    (∀ v, ("max_tokens", v) ∉
      build_payload "gpt" [⟨"user", "hi"⟩] (some 1) none none none none) := by
  have h := build_payload_spec "gpt" [⟨"user", "hi"⟩] (some 1) none none none none
  exact ⟨h.1, h.2.2.2.1 1 rfl, h.2.2.2.2.1 rfl⟩

/-- C1 counterexample: against a store with no sessions at all, a chat
turn for session id 1 does not return NotFound: with a stub client it
succeeds and persists both messages under the nonexistent session id, and
with a failing client the client's own error surfaces — so the client is
invoked. -/
theorem chat_missing_session_counterexample :
    chat_with_openai (fun _ => .ok ⟨some [⟨some ⟨some "pong"⟩⟩]⟩)
        ⟨[], [], 0⟩ 1 "ping" 0 =
      (.ok ⟨1, 0, "pong", "assistant"⟩,
       ⟨[], [⟨0, 1, "user", "ping", 0, false⟩,
             ⟨1, 1, "assistant", "pong", 0, false⟩], 2⟩) ∧
    chat_with_openai (fun _ => .error ⟨418, "teapot"⟩) ⟨[], [], 0⟩ 1 "ping" 0 =
      (.error ⟨418, "teapot"⟩, ⟨[], [], 0⟩) := by
  constructor <;> rfl

/-- C1 amended: `chat_with_openai` performs no session-existence check:
for a session id matching no session the Completion Client is still
invoked — a failing client's error is returned as is (never a NotFound
produced by a session check) — on success the user and assistant
messages are persisted under that session id, and the outcome is
independent of the sessions table altogether. -/
theorem chat_no_session_check (db : DB) (sid : Nat) (text : String) (now : Nat)
    (hno : ¬ ∃ s ∈ db.sessions, s.id = sid) :
    (∀ e, chat_with_openai (fun _ => .error e) db sid text now = (.error e, db)) ∧
    (∀ f resp s, f (build_chat_history db sid text) = .ok resp →
      extract_content resp = .ok s →
      (chat_with_openai f db sid text now).1 =
        .ok ⟨db.nextMessageId + 1, db.nextMessageId, s, "assistant"⟩ ∧
      (chat_with_openai f db sid text now).2.messages =
        db.messages ++
          [⟨db.nextMessageId, sid, "user", text, now, false⟩,
           ⟨db.nextMessageId + 1, sid, "assistant", s, now, false⟩]) ∧
    (∀ f ss2, (chat_with_openai f { db with sessions := ss2 } sid text now).1 =
        (chat_with_openai f db sid text now).1) := by
  refine ⟨?_, ?_, ?_⟩
  · intro e
    simp [chat_with_openai]
  · intro f resp s hf hex
    constructor <;> simp [chat_with_openai, hf, hex]
  · intro f ss2
    have hb : build_chat_history { db with sessions := ss2 } sid text =
        build_chat_history db sid text := rfl
    simp only [chat_with_openai, hb]
    cases hf : f (build_chat_history db sid text) with
    | error e => simp [hf]
    | ok resp =>
      cases hex : extract_content resp with
      | error err => cases err <;> simp [hf, hex]
      | ok s => simp [hf, hex]

/-- Witness for C1-amended: the store has a session 2 but no session 1;
a chat for session 1 surfaces the client's failure unchanged. -/
theorem chat_no_session_check_witness :
    chat_with_openai (fun _ => .error ⟨599, "down"⟩)
        ⟨[⟨2, true, none⟩], [], 0⟩ 1 "hi" 0 =
      (.error ⟨599, "down"⟩, ⟨[⟨2, true, none⟩], [], 0⟩) :=
  (chat_no_session_check ⟨[⟨2, true, none⟩], [], 0⟩ 1 "hi" 0 (by simp)).1
    ⟨599, "down"⟩

/-- C6 counterexample: the exception handlers of main.py place the
formatted stack-trace lines into the response payload (the
`exception_detail` field), so traces are exposed to the caller. -/
theorem handlers_expose_traceback_counterexample :
    (sqlalchemy_exception_handler "boom"
      ["Traceback (most recent call last):", "  raise"]).exception_detail =
      ["Traceback (most recent call last):", "  raise"] ∧
    (http_exception_handler ⟨404, "会话ID不存在"⟩
      ["Traceback line"]).exception_detail = ["Traceback line"] ∧
    (generic_exception_handler "x" ["tb"]).exception_detail = ["tb"] ∧
    (sqlalchemy_exception_handler "boom"
      ["Traceback (most recent call last):", "  raise"]).exception_detail ≠ [] := by
  refine ⟨rfl, rfl, rfl, by simp [sqlalchemy_exception_handler]⟩

/-- C6 amended: every failure yields a classified error — a status code
and a human-readable message carrying the error detail — but each handler
also exposes the stack-trace lines to the caller in the response payload
(the `exception_detail` field), rather than only logging them. -/
theorem handlers_classified_with_traceback (exc : String) (e : HTTPError)
    (tb : List String) :
    (sqlalchemy_exception_handler exc tb).status_code = 500 ∧
    (sqlalchemy_exception_handler exc tb).message =
      "内部服务器错误，无法完成数据库操作" ++ exc ∧
    (sqlalchemy_exception_handler exc tb).exception_detail = tb ∧
    (http_exception_handler e tb).status_code = e.status_code ∧
    (http_exception_handler e tb).message = "服务器错误" ++ e.detail ∧
    (http_exception_handler e tb).exception_detail = tb ∧
    (generic_exception_handler exc tb).status_code = 500 ∧
    (generic_exception_handler exc tb).message = "服务器未知错误" ++ exc ∧
    (generic_exception_handler exc tb).exception_detail = tb :=
  ⟨rfl, rfl, rfl, rfl, rfl, rfl, rfl, rfl, rfl⟩
